import Mathlib

/-!
Verification of the command-execution orchestrator of `tmux-claude-bridge`.

The development embeds, as executable Lean definitions, the pure decision
logic of the Node.js reference implementation (`command-detector.js`,
`tmux-manager.js`, the MCP server) and the Go bridge (`main.go`):

* the command classifier (`CommandDetector.analyzeCommand`,
  `getTimeoutStrategy`) with all its regex tables, via a small
  regular-expression matcher over `List Char`;
* the output sanitizer (`TmuxManager.cleanOutput`, `MainGo.cleanOutput`)
  with the exact global-replace semantics of the source regexes;
* completion detection (`isPaneIdle`, `isCommandComplete`,
  `isCommandCompleteByOutput`) where external tmux/process calls are
  abstracted as an environment record of their outcomes;
* the orchestrator's dispatch decision (`Mcp.executeTerminalCommand`),
  the background monitor step (`Mcp.monitorStep`) and the session registry.

Strings are modelled as `List Char`.  Wall-clock times and process ids are
opaque `Nat` parameters.  Effectful tmux primitives are recorded in a trace
(`Mcp.ExecResult`) rather than performed; their possible failures are
modelled with `Except` where the source handles exceptions.
-/

/-- Convert a Lean string literal to the `List Char` representation used
throughout this development. -/
def str (s : String) : List Char := s.toList

/-- The ASCII escape character `\x1b` that introduces ANSI sequences. -/
def escChar : Char := Char.ofNat 27

/-- JavaScript `\s` / `trim` whitespace, restricted to the ASCII characters
that can actually occur in the sanitized strings handled here
(space, tab, newline, carriage return, vertical tab, form feed). -/
def jsWs (c : Char) : Bool :=
  c = ' ' || c = '\t' || c = '\n' || c = '\r' || c = Char.ofNat 11 || c = Char.ofNat 12

/-- JavaScript `String.prototype.trimStart`. -/
def ltrimJs (l : List Char) : List Char := l.dropWhile jsWs

/-- JavaScript `String.prototype.trimEnd` (also Go `strings.TrimRight` with a
whitespace cutset). -/
def rtrimJs (l : List Char) : List Char := (l.reverse.dropWhile jsWs).reverse

/-- JavaScript `String.prototype.trim`. -/
def jsTrim (l : List Char) : List Char := rtrimJs (ltrimJs l)

/-- `split('\n')`: split a string into its lines.  Like the JavaScript
`String.prototype.split`, the result is never empty (`"" ↦ [""]`). -/
def splitLines : List Char → List (List Char)
  | [] => [[]]
  | c :: rest =>
    if c = '\n' then [] :: splitLines rest
    else
      let ls := splitLines rest
      (c :: ls.headI) :: ls.tail

/-- `join('\n')`: interleave `'\n'` between the lines. -/
def joinLines : List (List Char) → List Char
  | [] => []
  | [l] => l
  | l :: ls => l ++ '\n' :: joinLines ls

/-! ### A small regular-expression matcher

Just enough to transcribe the regexes of `command-detector.js` and
`tmux-manager.js` faithfully: literals, character classes, sequencing,
alternation, star/plus over a character class, and the `$` end anchor.
Every star/plus in the source regexes ranges over a single character
class, so the matcher needs no general (nullable) repetition. -/

inductive RE where
  | eps
  | chr (c : Char)
  | cls (p : Char → Bool)
  | seq (a b : RE)
  | alt (a b : RE)
  | star (p : Char → Bool)
  | plus (p : Char → Bool)
  | eos

/-- All suffixes reachable by consuming a (possibly empty) run of
characters satisfying `p` — the semantics of `p*`. -/
def starRem (p : Char → Bool) : List Char → List (List Char)
  | [] => [[]]
  | c :: rest => (c :: rest) :: (if p c then starRem p rest else [])

/-- All suffixes reachable by consuming a nonempty run of characters
satisfying `p` — the semantics of `p+`. -/
def plusRem (p : Char → Bool) : List Char → List (List Char)
  | [] => []
  | c :: rest => if p c then starRem p rest else []

/-- Nondeterministic matcher: the list of remainders after matching the
regex against a prefix of the input. -/
def RE.run : RE → List Char → List (List Char)
  | .eps, l => [l]
  | .chr _, [] => []
  | .chr c, x :: r => if x = c then [r] else []
  | .cls _, [] => []
  | .cls p, x :: r => if p x then [r] else []
  | .seq a b, l => (a.run l).flatMap b.run
  | .alt a b, l => a.run l ++ b.run l
  | .star p, l => starRem p l
  | .plus p, l => plusRem p l
  | .eos, [] => [[]]
  | .eos, _ :: _ => []

/-- `re.test(s)` for a regex anchored at the start (`/^.../`). -/
def RE.testA (re : RE) (l : List Char) : Bool := !(re.run l).isEmpty

/-- `re.test(s)` for an unanchored regex: search at every position. -/
def RE.testS (re : RE) (l : List Char) : Bool := l.tails.any re.testA

/-- Case-insensitive anchored test (`/^.../i`): the input is lowercased and
the pattern is written in lowercase. -/
def RE.testAI (re : RE) (l : List Char) : Bool := re.testA (l.map Char.toLower)

/-- Case-insensitive unanchored test (`/.../i`). -/
def RE.testSI (re : RE) (l : List Char) : Bool := re.testS (l.map Char.toLower)

/-- Literal string regex. -/
def lit (s : String) : RE := s.toList.foldr (fun c r => RE.seq (RE.chr c) r) RE.eps

/-- Sequencing of a list of regexes. -/
def rcat (rs : List RE) : RE := rs.foldr RE.seq RE.eps

/-- Alternation of a list of regexes (empty list matches nothing). -/
def ralt : List RE → RE
  | [] => RE.cls (fun _ => false)
  | [r] => r
  | r :: rs => RE.alt r (ralt rs)

/-- `(...)?`. -/
def ropt (r : RE) : RE := RE.alt r RE.eps

/-- `\s+`. -/
def wsP : RE := RE.plus jsWs

/-- `\s*`. -/
def wsS : RE := RE.star jsWs

/-- `\w+` (`[A-Za-z0-9_]+`). -/
def wordP : RE := RE.plus (fun c => c.isAlphanum || c = '_')

/-- `.*` — any run of non-newline characters. -/
def anyS : RE := RE.star (fun c => c ≠ '\n')

namespace CommandDetector

/-- `this.longRunningPatterns` of `command-detector.js`, in source order
(all tested with `/^.../i`). -/
def longRunningPatterns : List RE := [
  -- /^npm\s+(install|ci|run\s+build|run\s+test)/i
  rcat [lit "npm", wsP, ralt [lit "install", lit "ci",
    rcat [lit "run", wsP, lit "build"], rcat [lit "run", wsP, lit "test"]]],
  -- /^yarn\s+(install|build|test)/i
  rcat [lit "yarn", wsP, ralt [lit "install", lit "build", lit "test"]],
  -- /^pnpm\s+(install|run)/i
  rcat [lit "pnpm", wsP, ralt [lit "install", lit "run"]],
  -- /^pip\s+install/i
  rcat [lit "pip", wsP, lit "install"],
  -- /^conda\s+(install|create|update)/i
  rcat [lit "conda", wsP, ralt [lit "install", lit "create", lit "update"]],
  -- /^brew\s+(install|update|upgrade)/i
  rcat [lit "brew", wsP, ralt [lit "install", lit "update", lit "upgrade"]],
  -- /^apt(-get)?\s+(install|update|upgrade)/i
  rcat [lit "apt", ropt (lit "-get"), wsP, ralt [lit "install", lit "update", lit "upgrade"]],
  -- /^yum\s+(install|update)/i
  rcat [lit "yum", wsP, ralt [lit "install", lit "update"]],
  -- /^dnf\s+(install|update)/i
  rcat [lit "dnf", wsP, ralt [lit "install", lit "update"]],
  -- /^make(\s+\w+)?$/i
  rcat [lit "make", ropt (rcat [wsP, wordP]), RE.eos],
  -- /^cmake\s+/i
  rcat [lit "cmake", wsP],
  -- /^cargo\s+(build|test|install)/i
  rcat [lit "cargo", wsP, ralt [lit "build", lit "test", lit "install"]],
  -- /^go\s+(build|test|install|get)/i
  rcat [lit "go", wsP, ralt [lit "build", lit "test", lit "install", lit "get"]],
  -- /^rustc\s+/i
  rcat [lit "rustc", wsP],
  -- /^gcc\s+/i
  rcat [lit "gcc", wsP],
  -- /^g\+\+\s+/i
  rcat [lit "g++", wsP],
  -- /^docker\s+(build|pull|push|run.*-d)/i
  rcat [lit "docker", wsP, ralt [lit "build", lit "pull", lit "push",
    rcat [lit "run", anyS, lit "-d"]]],
  -- /^docker-compose\s+(build|up|pull)/i
  rcat [lit "docker-compose", wsP, ralt [lit "build", lit "up", lit "pull"]],
  -- /^pytest/i
  lit "pytest",
  -- /^npm\s+test/i
  rcat [lit "npm", wsP, lit "test"],
  -- /^yarn\s+test/i
  rcat [lit "yarn", wsP, lit "test"],
  -- /^jest/i
  lit "jest",
  -- /^mocha/i
  lit "mocha",
  -- /^phpunit/i
  lit "phpunit",
  -- /^mvn\s+test/i
  rcat [lit "mvn", wsP, lit "test"],
  -- /^gradle\s+test/i
  rcat [lit "gradle", wsP, lit "test"],
  -- /^mongodump/i
  lit "mongodump",
  -- /^mysqldump/i
  lit "mysqldump",
  -- /^pg_dump/i
  lit "pg_dump",
  -- /^rsync\s+/i
  rcat [lit "rsync", wsP],
  -- /^scp\s+.*:/i
  rcat [lit "scp", wsP, anyS, RE.chr ':'],
  -- /^tar\s+(czf|cjf)/i
  rcat [lit "tar", wsP, ralt [lit "czf", lit "cjf"]],
  -- /^zip\s+-r/i
  rcat [lit "zip", wsP, lit "-r"],
  -- /^unzip\s+/i
  rcat [lit "unzip", wsP],
  -- /^wget\s+/i
  rcat [lit "wget", wsP],
  -- /^curl.*-O/i
  rcat [lit "curl", anyS, lit "-o"],
  -- /^git\s+clone/i
  rcat [lit "git", wsP, lit "clone"],
  -- /^git\s+pull/i
  rcat [lit "git", wsP, lit "pull"],
  -- /^git\s+push/i
  rcat [lit "git", wsP, lit "push"],
  -- /^find\s+\/.*-exec/i
  rcat [lit "find", wsP, RE.chr '/', anyS, lit "-exec"],
  -- /^grep\s+-r/i
  rcat [lit "grep", wsP, lit "-r"],
  -- /^rg\s+-r/i
  rcat [lit "rg", wsP, lit "-r"]]

/-- `this.interactivePatterns` of `command-detector.js` (all `/^.../i`). -/
def interactivePatterns : List RE := [
  rcat [lit "sudo", wsP],                       -- /^sudo\s+/i
  rcat [lit "ssh", wsP],                        -- /^ssh\s+/i
  rcat [lit "vi", ropt (RE.chr 'm'), wsP],      -- /^vim?\s+/i
  rcat [lit "nano", wsP],                       -- /^nano\s+/i
  rcat [lit "emacs", wsP],                      -- /^emacs\s+/i
  rcat [lit "less", wsP],                       -- /^less\s+/i
  rcat [lit "more", wsP],                       -- /^more\s+/i
  rcat [lit "top", RE.eos],                     -- /^top$/i
  rcat [lit "htop", RE.eos],                    -- /^htop$/i
  rcat [lit "man", wsP],                        -- /^man\s+/i
  rcat [lit "mysql", wsS, RE.eos],              -- /^mysql\s*$/i
  lit "psql",                                   -- /^psql/i
  rcat [lit "mongo", RE.eos],                   -- /^mongo$/i
  rcat [lit "python", RE.eos],                  -- /^python$/i
  rcat [lit "node", RE.eos],                    -- /^node$/i
  rcat [lit "irb", RE.eos],                     -- /^irb$/i
  rcat [lit "rails", wsP, lit "console"]]       -- /^rails\s+console/i

/-- `isLongRunning`: some long-running pattern matches. -/
def isLongRunning (t : List Char) : Bool := longRunningPatterns.any (·.testAI t)

/-- `isInteractive`: some interactive pattern matches. -/
def isInteractive (t : List Char) : Bool := interactivePatterns.any (·.testAI t)

/-- `categorizeCommand`: first matching category in source order,
defaulting to `general`. -/
def categorizeCommand (t : List Char) : List Char :=
  -- /^(npm|yarn|pnpm|pip|conda|brew|apt|yum|dnf)/i
  if (ralt [lit "npm", lit "yarn", lit "pnpm", lit "pip", lit "conda",
      lit "brew", lit "apt", lit "yum", lit "dnf"]).testAI t then str "package-manager"
  -- /^(make|cmake|cargo|go\s+build|rustc|gcc|g\+\+)/i
  else if (ralt [lit "make", lit "cmake", lit "cargo",
      rcat [lit "go", wsP, lit "build"], lit "rustc", lit "gcc", lit "g++"]).testAI t then
    str "build"
  -- /^docker/i
  else if (lit "docker").testAI t then str "container"
  -- /^(pytest|.*test|jest|mocha)/i
  else if (ralt [lit "pytest", rcat [anyS, lit "test"], lit "jest", lit "mocha"]).testAI t then
    str "testing"
  -- /^git\s+/i
  else if (rcat [lit "git", wsP]).testAI t then str "version-control"
  -- /^(ls|find|grep|cp|mv|rm|tar|zip)/i
  else if (ralt [lit "ls", lit "find", lit "grep", lit "cp", lit "mv",
      lit "rm", lit "tar", lit "zip"]).testAI t then str "file-system"
  -- /^(curl|wget|ssh|scp|ping)/i
  else if (ralt [lit "curl", lit "wget", lit "ssh", lit "scp", lit "ping"]).testAI t then
    str "network"
  -- /^(ps|top|htop|df|du|free|uptime)/i
  else if (ralt [lit "ps", lit "top", lit "htop", lit "df", lit "du",
      lit "free", lit "uptime"]).testAI t then str "system"
  else str "general"

/-- `estimateDuration`: heuristic duration in seconds. -/
def estimateDuration (t : List Char) : Nat :=
  -- /^(npm\s+install|yarn\s+install|docker\s+build|cargo\s+build.*--release)/i
  if (ralt [rcat [lit "npm", wsP, lit "install"], rcat [lit "yarn", wsP, lit "install"],
      rcat [lit "docker", wsP, lit "build"],
      rcat [lit "cargo", wsP, lit "build", anyS, lit "--release"]]).testAI t then 600
  -- /^(make|pytest|npm\s+(run\s+)?test|git\s+clone)/i
  else if (ralt [lit "make", lit "pytest",
      rcat [lit "npm", wsP, ropt (rcat [lit "run", wsP]), lit "test"],
      rcat [lit "git", wsP, lit "clone"]]).testAI t then 180
  -- /^(pip\s+install|go\s+build|cargo\s+build)/i
  else if (ralt [rcat [lit "pip", wsP, lit "install"], rcat [lit "go", wsP, lit "build"],
      rcat [lit "cargo", wsP, lit "build"]]).testAI t then 90
  -- /^(npm\s+run|yarn\s+run|git\s+(pull|push))/i
  else if (ralt [rcat [lit "npm", wsP, lit "run"], rcat [lit "yarn", wsP, lit "run"],
      rcat [lit "git", wsP, ralt [lit "pull", lit "push"]]]).testAI t then 15
  else 3

/-- `requiresSudo`: `/^sudo\s+/` — note: case-sensitive in the source. -/
def requiresSudo (t : List Char) : Bool := (rcat [lit "sudo", wsP]).testA t

/-- The flag object built by `getSpecialHandling` (JavaScript keys become
record fields; absent keys are `false`/`none`). -/
structure SpecialFlags where
  editor : Bool := false
  shell : Bool := false
  repl : Bool := false
  pager : Bool := false
  monitor : Bool := false
  needsPasswordPrompt : Bool := false
  needsFocus : Bool := false
  staysRunning : Bool := false
  needsManualStop : Bool := false
  message : Option (List Char) := none
deriving DecidableEq

/-- `this.specialCommands.editor = /^(vim?|nano|emacs)\s+/i`. -/
def editorPattern : RE :=
  rcat [ralt [rcat [lit "vi", ropt (RE.chr 'm')], lit "nano", lit "emacs"], wsP]

/-- `this.specialCommands.shell = /^(bash|zsh|fish|sh)$/i`. -/
def shellPattern : RE := rcat [ralt [lit "bash", lit "zsh", lit "fish", lit "sh"], RE.eos]

/-- `this.specialCommands.repl = /^(python|node|irb)$/i`. -/
def replPattern : RE := rcat [ralt [lit "python", lit "node", lit "irb"], RE.eos]

/-- `this.specialCommands.pager = /^(less|more)\s+/i`. -/
def pagerPattern : RE := rcat [ralt [lit "less", lit "more"], wsP]

/-- `this.specialCommands.monitor = /^(top|htop|watch)\s*/i`. -/
def monitorPattern : RE := rcat [ralt [lit "top", lit "htop", lit "watch"], wsS]

/-- `getSpecialHandling`: build the flag set; return `none` when no key was
set (the source returns `null` when `Object.keys(special).length == 0`). -/
def getSpecialHandling (t : List Char) : Option SpecialFlags :=
  let s0 : SpecialFlags :=
    { editor := editorPattern.testAI t
      shell := shellPattern.testAI t
      repl := replPattern.testAI t
      pager := pagerPattern.testAI t
      monitor := monitorPattern.testAI t
      needsPasswordPrompt := requiresSudo t }
  let s1 := if s0.editor then
    { s0 with needsFocus := true
              message := some (str "Editor opened in CT Pane. Switch to pane for editing.") }
    else s0
  let s2 := if s1.repl then
    { s1 with staysRunning := true
              message := some (str "REPL started in CT Pane. Use 'exit()' or Ctrl+D to quit.") }
    else s1
  let s3 := if s2.monitor then
    { s2 with needsManualStop := true
              message := some (str "Monitor started in CT Pane. Press 'q' or Ctrl+C to stop.") }
    else s2
  if s0.editor || s0.shell || s0.repl || s0.pager || s0.monitor || s0.needsPasswordPrompt
  then some s3 else none

/-- The record returned by `analyzeCommand`. -/
structure CommandAnalysis where
  command : List Char
  isLongRunning : Bool
  isInteractive : Bool
  category : List Char
  estimatedDuration : Nat
  requiresSudo : Bool
  special : Option SpecialFlags
deriving DecidableEq

/-- `analyzeCommand` applied to the already-trimmed command text. -/
def analyzeTrimmed (t : List Char) : CommandAnalysis :=
  { command := t
    isLongRunning := isLongRunning t
    isInteractive := isInteractive t
    category := categorizeCommand t
    estimatedDuration := estimateDuration t
    requiresSudo := requiresSudo t
    special := getSpecialHandling t }

/-- `analyzeCommand`: trim, then classify each independent axis. -/
def analyzeCommand (command : List Char) : CommandAnalysis :=
  analyzeTrimmed (jsTrim command)

/-- The record returned by `getTimeoutStrategy` (`timeout` is absent —
`none` — for the `no-timeout` strategy). -/
structure TimeoutStrategy where
  strategy : List Char
  timeout : Option Nat
  reason : List Char
deriving DecidableEq

/-- `getTimeoutStrategy`: interactive → no-timeout; estimated > 300 s →
async; > 30 s → extended (30 s budget); otherwise quick (5 s budget). -/
def getTimeoutStrategy (command : List Char) : TimeoutStrategy :=
  let analysis := analyzeCommand command
  if analysis.isInteractive then
    { strategy := str "no-timeout", timeout := none
      reason := str "Interactive command requires user input" }
  else if analysis.estimatedDuration > 300 then
    { strategy := str "async", timeout := some 5000
      reason := str "Long-running command, switching to background monitoring" }
  else if analysis.estimatedDuration > 30 then
    { strategy := str "extended", timeout := some 30000
      reason := str "Medium duration command" }
  else
    { strategy := str "quick", timeout := some 5000
      reason := str "Quick command execution" }

/-- Modelled from the spec: the timeout-strategy cascade exactly as the
specification words it ("if `isInteractive` → `no-timeout`; else if
`estimatedDurationSeconds > 300` → `async`; else if
`estimatedDurationSeconds > 30` → `extended` (wait up to 30s); else →
`quick` (wait up to 5s)"), for comparison with `getTimeoutStrategy`.
The spec fixes no budget for `async`; the code's 5000 ms grace wait and the
human-readable reasons are taken from the source so whole records compare. -/
def specTimeoutCascade (command : List Char) : TimeoutStrategy :=
  let analysis := analyzeCommand command
  if analysis.isInteractive then
    { strategy := str "no-timeout", timeout := none
      reason := str "Interactive command requires user input" }
  else if analysis.estimatedDuration > 300 then
    { strategy := str "async", timeout := some 5000
      reason := str "Long-running command, switching to background monitoring" }
  else if analysis.estimatedDuration > 30 then
    { strategy := str "extended", timeout := some 30000
      reason := str "Medium duration command" }
  else
    { strategy := str "quick", timeout := some 5000
      reason := str "Quick command execution" }

end CommandDetector

namespace TmuxManager

/-- `[0-9;]` — the parameter characters of `/\x1b\[[0-9;]*[a-zA-Z]/`. -/
def isParamChar (c : Char) : Bool := c.isDigit || c = ';'

/-- `[\?\!0-9;]` — the parameter characters of `/\x1b\[[\?\!0-9;]*[a-zA-Z]/`. -/
def isParamChar2 (c : Char) : Bool := c.isDigit || c = ';' || c = '?' || c = '!'

/-- `[)(0-9A-Za-z]` — the class of `/\x1b[)(0-9A-Za-z]/`. -/
def isR3Char (c : Char) : Bool := c = '(' || c = ')' || c.isDigit || c.isAlpha

/-- `[\[\]()#;?]` — the bracket class of `/\x1b[\[\]()#;?]*[0-9A-Fa-f]*/`. -/
def isR4Bracket (c : Char) : Bool :=
  c = '[' || c = ']' || c = '(' || c = ')' || c = '#' || c = ';' || c = '?'

/-- `[0-9A-Fa-f]`. -/
def isHexChar (c : Char) : Bool :=
  c.isDigit || ('a' ≤ c && c ≤ 'f') || ('A' ≤ c && c ≤ 'F')

/-- `[\x00-\x08\x0B-\x1f\x7f-\x9f]` — the control characters removed by the
fifth replacement (newline `\x0A` and tab `\x09` are deliberately kept). -/
def isCtrlClass (c : Char) : Bool :=
  c.toNat ≤ 0x08 || (0x0B ≤ c.toNat && c.toNat ≤ 0x1F) ||
  (0x7F ≤ c.toNat && c.toNat ≤ 0x9F)

/-- `.replace(/\x1b\[<param>*[a-zA-Z]/g, '')` — a global replace of
CSI-style sequences, parameterised by the parameter-character class.
At each escape character, the scanner consumes `'['`, the maximal run of
parameter characters and one letter; if that fails the escape character is
kept and scanning resumes at the next position, exactly as the regex
engine's leftmost-match global replacement does (greediness is exact here
because the parameter class excludes letters).  The `fuel` argument makes
the recursion structural (every step consumes at least one character, so
`fuel = length` in the wrapper `stripCSI` below always suffices). -/
def stripCSIF (p : Char → Bool) : Nat → List Char → List Char
  | 0, l => l
  | _ + 1, [] => []
  | fuel + 1, c :: rest =>
    if c = escChar then
      match rest with
      | '[' :: body =>
        match body.dropWhile p with
        | d :: tail =>
          if d.isAlpha then stripCSIF p fuel tail else c :: stripCSIF p fuel ('[' :: body)
        | [] => c :: stripCSIF p fuel ('[' :: body)
      | [] => [c]
      | d :: tail => c :: stripCSIF p fuel (d :: tail)
    else c :: stripCSIF p fuel rest

/-- The CSI-sequence global replace at full fuel. -/
def stripCSI (p : Char → Bool) (l : List Char) : List Char := stripCSIF p l.length l

/-- `.replace(/\x1b[)(0-9A-Za-z]/g, '')`. -/
def stripR3F : Nat → List Char → List Char
  | 0, l => l
  | _ + 1, [] => []
  | fuel + 1, c :: rest =>
    if c = escChar then
      match rest with
      | d :: tail => if isR3Char d then stripR3F fuel tail else c :: stripR3F fuel (d :: tail)
      | [] => [c]
    else c :: stripR3F fuel rest

/-- The `/\x1b[)(0-9A-Za-z]/g` replace at full fuel. -/
def stripR3 (l : List Char) : List Char := stripR3F l.length l

/-- `.replace(/\x1b[\[\]()#;?]*[0-9A-Fa-f]*/g, '')`: every escape
character matches (both repetitions may be empty), consuming the maximal
bracket run then the maximal hex run; the classes are disjoint so greedy
matching is exact. -/
def stripR4F : Nat → List Char → List Char
  | 0, l => l
  | _ + 1, [] => []
  | fuel + 1, c :: rest =>
    if c = escChar then
      stripR4F fuel ((rest.dropWhile isR4Bracket).dropWhile isHexChar)
    else c :: stripR4F fuel rest

/-- The `/\x1b[\[\]()#;?]*[0-9A-Fa-f]*/g` replace at full fuel. -/
def stripR4 (l : List Char) : List Char := stripR4F l.length l

/-- `.replace(/[\x00-\x08\x0B-\x1f\x7f-\x9f]/g, '')`. -/
def stripCtl (l : List Char) : List Char := l.filter (fun c => !(isCtrlClass c))

/-- `.replace(/\r/g, '')`. -/
def stripCR (l : List Char) : List Char := l.filter (fun c => c ≠ '\r')

/-- The per-line phase of `cleanOutput`:
`.split('\n').map(line => line.trimRight()).join('\n').trim()`. -/
def processLines (l : List Char) : List Char :=
  jsTrim (joinLines ((splitLines l).map rtrimJs))

/-- `TmuxManager.cleanOutput` of `tmux-manager.js`: the five global regex
replacements, carriage-return removal, per-line right-trim and final trim,
in source order. -/
def cleanOutput (output : List Char) : List Char :=
  processLines (stripCR (stripCtl (stripR4 (stripR3
    (stripCSI isParamChar2 (stripCSI isParamChar output))))))

/-- The seven `promptPatterns` of `isCommandCompleteByOutput`
(unanchored, case-sensitive). -/
def promptPatterns : List RE := [
  rcat [RE.chr '$', wsS, RE.eos],               -- /\$\s*$/
  rcat [RE.chr '#', wsS, RE.eos],               -- /#\s*$/
  rcat [RE.chr '>', wsS, RE.eos],               -- />\s*$/
  rcat [RE.chr '%', wsS, RE.eos],               -- /%\s*$/
  rcat [RE.chr '❯', wsS, RE.eos],               -- /❯\s*$/
  rcat [RE.chr '➜', anyS, RE.eos],              -- /➜.*$/
  -- /.*git:\([^)]+\)\s*$/
  rcat [anyS, lit "git:(", RE.plus (fun c => c ≠ ')'), RE.chr ')', wsS, RE.eos]]

/-- `isCommandCompleteByOutput`: split into lines, take the trimmed last
line, return whether some prompt pattern matches it (the `lines.length == 0`
guard of the source is kept although `split` never yields an empty array). -/
def isCommandCompleteByOutput (output : List Char) : Bool :=
  let lines := splitLines output
  if lines.length = 0 then false
  else
    let lastLine := jsTrim (lines.getLastD [])
    promptPatterns.any (·.testS lastLine)

/-- The `interactivePatterns` of `detectInteractivePrompts`
(unanchored, `/.../i`). -/
def interactivePromptPatterns : List RE := [
  rcat [lit "password", anyS, RE.chr ':'],      -- /password.*:/i
  lit "[y/n]",                                  -- /\[y\/n\]/i
  lit "[yes/no]",                               -- /\[yes\/no\]/i
  lit "continue?",                              -- /continue\?/i
  rcat [lit "press", anyS, lit "key"],          -- /press.*key/i
  rcat [lit "enter", anyS, lit "passphrase"],   -- /enter.*passphrase/i
  rcat [lit "sudo", anyS, lit "password"]]      -- /sudo.*password/i

/-- `detectInteractivePrompts`. -/
def detectInteractivePrompts (output : List Char) : Bool :=
  interactivePromptPatterns.any (·.testSI output)

/-- The outcomes of the external tmux/process primitives that
`TmuxManager`'s detection methods consult: the configured CT pane, the
result of resolving the pane's shell pid (`tmux display-message`), of
listing its children (`pgrep`), of capturing the pane
(`tmux capture-pane`), and of focusing it (`tmux select-pane`).
`Except.error` models the underlying call throwing. -/
structure TmuxEnv where
  ctPane : Option Nat
  shellPid : Except (List Char) Nat
  childPids : Except (List Char) (List Nat)
  captureRaw : Except (List Char) (List Char)
  focusResult : Except (List Char) Unit

/-- The error thrown whenever no CT pane is configured. -/
def noPaneMsg : List Char := str "No Claude Terminal pane available"

/-- `getShellPid`: throws without a CT pane; wraps a failing
`tmux display-message` call in its own message. -/
def getShellPid (e : TmuxEnv) : Except (List Char) Nat :=
  match e.ctPane with
  | none => .error noPaneMsg
  | some _ =>
    match e.shellPid with
    | .ok pid => .ok pid
    | .error m => .error (str "Failed to get shell PID: " ++ m)

/-- `getChildProcesses`: a failing `pgrep` is caught and yields `[]`. -/
def getChildProcesses (e : TmuxEnv) : List Nat :=
  match e.childPids with
  | .ok pids => pids
  | .error _ => []

/-- `isPaneIdle`: throws without a CT pane (before its `try`); any error
inside the `try` (resolving the shell pid) is caught and yields `false`
("assume busy"); otherwise idle iff the shell has no children. -/
def isPaneIdle (e : TmuxEnv) : Except (List Char) Bool :=
  match e.ctPane with
  | none => .error noPaneMsg
  | some _ =>
    match getShellPid e with
    | .error _ => .ok false
    | .ok _ => .ok (getChildProcesses e).isEmpty

/-- `isCommandCompleteByProcess` — an alias for `isPaneIdle`. -/
def isCommandCompleteByProcess (e : TmuxEnv) : Except (List Char) Bool :=
  isPaneIdle e

/-- `capturePane`: throws without a CT pane; wraps a failing
`tmux capture-pane` in its own message; sanitizes the captured text. -/
def capturePane (e : TmuxEnv) : Except (List Char) (List Char) :=
  match e.ctPane with
  | none => .error noPaneMsg
  | some _ =>
    match e.captureRaw with
    | .ok raw => .ok (cleanOutput raw)
    | .error m => .error (str "Failed to capture pane: " ++ m)

/-- `isCommandComplete`: process-based detection first; if it throws, fall
back to textual detection on the captured pane; if that also throws,
return `false`.  The result is always a `Bool` — no error escapes. -/
def isCommandComplete (e : TmuxEnv) : Bool :=
  match isCommandCompleteByProcess e with
  | .ok b => b
  | .error _ =>
    match capturePane e with
    | .ok output => isCommandCompleteByOutput output
    | .error _ => false

/-- `focusClaudeTerminal`: throws without a CT pane; otherwise the
underlying `tmux select-pane` call's outcome. -/
def focusClaudeTerminal (e : TmuxEnv) : Except (List Char) Unit :=
  match e.ctPane with
  | none => .error noPaneMsg
  | some _ =>
    match e.focusResult with
    | .ok _ => .ok ()
    | .error m => .error (str "Failed to focus Claude Terminal: " ++ m)

end TmuxManager

namespace MainGo

/-- Go `regexp.MustCompile("\x1b\\[[0-9;]*m")` global replace: at each
escape character consume `'['`, the maximal `[0-9;]` run and a literal
`'m'`; on failure keep the escape character and resume at the next
position (RE2's leftmost global replacement; greediness is exact since
`'m'` is not in `[0-9;]`). -/
def stripSGRF : Nat → List Char → List Char
  | 0, l => l
  | _ + 1, [] => []
  | fuel + 1, c :: rest =>
    if c = escChar then
      match rest with
      | '[' :: body =>
        match body.dropWhile TmuxManager.isParamChar with
        | d :: tail =>
          if d = 'm' then stripSGRF fuel tail else c :: stripSGRF fuel ('[' :: body)
        | [] => c :: stripSGRF fuel ('[' :: body)
      | [] => [c]
      | d :: tail => c :: stripSGRF fuel (d :: tail)
    else c :: stripSGRF fuel rest

/-- The SGR-sequence global replace at full fuel. -/
def stripSGR (l : List Char) : List Char := stripSGRF l.length l

/-- Go `strings.TrimRight(line, " \t")`. -/
def trimRightGo (l : List Char) : List Char :=
  (l.reverse.dropWhile (fun c => c = ' ' || c = '\t')).reverse

/-- `cleanOutput` of `main.go`: split on newlines; per line strip SGR
sequences, remove carriage returns and right-trim spaces/tabs; rejoin. -/
def cleanOutput (output : List Char) : List Char :=
  joinLines ((splitLines output).map
    (fun line => trimRightGo (TmuxManager.stripCR (stripSGR line))))

/-- `isCommandComplete` of `main.go`: match the space-trimmed last line
against the four prompt-suffix patterns `\$\s*$`, `#\s*$`, `>\s*$`,
`%\s*$` (Go has no `❯`/`➜`/git-branch patterns). -/
def isCommandComplete (output : List Char) : Bool :=
  let lines := splitLines output
  if lines.length = 0 then false
  else
    let lastLine := jsTrim (lines.getLastD [])
    [rcat [RE.chr '$', wsS, RE.eos], rcat [RE.chr '#', wsS, RE.eos],
     rcat [RE.chr '>', wsS, RE.eos], rcat [RE.chr '%', wsS, RE.eos]].any
      (·.testS lastLine)

end MainGo

namespace Mcp

/-- Tracking identifiers are the UUID strings generated per dispatch. -/
abbrev CommandId := List Char

/-- One `activeCommands` entry, as built by `monitorAsyncCommand`
(`{command, startTime, analysis, status}`) and later mutated by the
background monitor (`output`, `error`, `duration`). -/
structure CommandInfo where
  command : List Char
  startTime : Nat
  analysis : CommandDetector.CommandAnalysis
  status : List Char
  output : Option (List Char) := none
  error : Option (List Char) := none
  duration : Option Nat := none
deriving DecidableEq

/-- The session registry `this.activeCommands` — a JavaScript `Map`,
modelled as an insertion-ordered association list. -/
abbrev Registry := List (CommandId × CommandInfo)

/-- `Map.get`. -/
def rlookup (reg : Registry) (k : CommandId) : Option CommandInfo :=
  match reg with
  | [] => none
  | (k', v) :: t => if k' = k then some v else rlookup t k

/-- `Map.set`: replace the value under an existing key, else append. -/
def rset (reg : Registry) (k : CommandId) (v : CommandInfo) : Registry :=
  if (rlookup reg k).isSome then
    reg.map (fun p => if p.1 = k then (p.1, v) else p)
  else reg ++ [(k, v)]

/-- In-place mutation of the entry under `k` (a no-op when absent, like the
source's `if (commandInfo)` guards). -/
def rmodify (reg : Registry) (k : CommandId) (f : CommandInfo → CommandInfo) : Registry :=
  match reg with
  | [] => []
  | (k', v) :: t => (if k' = k then (k', f v) else (k', v)) :: rmodify t k f

/-- The registry effect of calling `monitorAsyncCommand`: insert the fresh
session with `status: 'running'`.  (Its recurring check is `monitorStep`.) -/
def monitorRegister (reg : Registry) (cid : CommandId) (command : List Char)
    (analysis : CommandDetector.CommandAnalysis) (now : Nat) : Registry :=
  rset reg cid { command := command, startTime := now, analysis := analysis
                 status := str "running" }

/-- One recurring background check of `monitorAsyncCommand`, as a function
of the tmux environment.  Returns the updated registry and whether the
check re-schedules itself.  Mirrors the source: capture the pane (a throw
is caught and marks the session `error`, stopping); if complete, mark
`completed` with the output and elapsed duration and stop; if an
interactive prompt is showing, mark `needs_interaction`, record the output
and focus the pane (a throwing focus call is caught by the same handler and
overwrites the status with `error`), stopping; otherwise re-schedule. -/
def monitorStep (e : TmuxManager.TmuxEnv) (reg : Registry) (cid : CommandId)
    (now : Nat) : Registry × Bool :=
  match TmuxManager.capturePane e with
  | .error m =>
    (rmodify reg cid (fun i => { i with status := str "error", error := some m }), false)
  | .ok output =>
    if TmuxManager.isCommandComplete e then
      (rmodify reg cid (fun i =>
        { i with status := str "completed", output := some output
                 duration := some ((now - i.startTime) / 1000) }), false)
    else if TmuxManager.detectInteractivePrompts output then
      match TmuxManager.focusClaudeTerminal e with
      | .ok _ =>
        (rmodify reg cid (fun i =>
          { i with status := str "needs_interaction", output := some output }), false)
      | .error m =>
        (rmodify reg cid (fun i =>
          { i with status := str "error", error := some m, output := some output }), false)
    else (reg, true)

/-- The arguments of the `execute_terminal_command` tool. -/
structure ExecArgs where
  command : List Char
  wait_for_completion : Option Bool := none
  target_pane : Option Nat := none

/-- The orchestrator state read by `executeTerminalCommand`: the configured
CT pane and the session registry. -/
structure ExecState where
  ctPane : Option Nat
  activeCommands : Registry

/-- The abstract outcome of the synchronous poll loop
(`waitForCommandCompletion`): it either observes completion, an interactive
prompt, a monitoring error, or exhausts its wait budget.  The loop's
internal 500 ms tick dynamics are external behaviour and are abstracted to
this observation. -/
inductive PollOutcome where
  | completed (out : List Char)
  | interactivePrompt (out : List Char)
  | errored (msg : List Char)
  | timedOut
deriving DecidableEq

/-- The response returned to the caller, by kind. -/
inductive ResponseKind where
  /-- "No target pane specified and no default Claude Terminal pane
  available." -/
  | noPane
  /-- An exception escaped to the tool handler (e.g. `sendKeys` without a
  default CT pane). -/
  | thrown (msg : List Char)
  /-- The immediate special-case hand-off to the human (sudo password,
  editor, REPL, monitor). -/
  | needsInteraction (msg : List Char)
  /-- "command started … use get_command_status" — background monitoring
  began without synchronous waiting. -/
  | asyncStarted
  /-- "command completed in …s" with the captured output. -/
  | syncCompleted (out : List Char)
  /-- "Interactive prompt detected … focus switched" from the poll loop. -/
  | syncInteractive (out : List Char)
  /-- "Error monitoring command: …" from the poll loop. -/
  | syncError (msg : List Char)
  /-- "running longer than expected … switched to background monitoring". -/
  | timedOutToAsync
deriving DecidableEq

/-- The observable outcome of one `executeTerminalCommand` call: the
response kind plus a trace of which tmux primitives ran. -/
structure ExecResult where
  response : ResponseKind
  dispatched : Bool := false
  focused : Bool := false
  cleared : Bool := false
  invokedPollLoop : Bool := false
  startedAsyncMonitor : Bool := false
deriving DecidableEq

/-- `executeTerminalCommand` of the MCP server, as a function of the
orchestrator state, the tool arguments, the fresh tracking id, the current
time and the abstract poll observation.  tmux keystroke/focus primitives
are modelled as succeeding (their invocation is recorded in the trace);
the one failure that is pure control flow — `sendKeys`/`focus` throwing
for want of a configured CT pane on the special-case paths, which use the
default pane rather than `target_pane` — is modelled as `ResponseKind.thrown`.
Returns the result together with the registry after the call. -/
def executeTerminalCommand (st : ExecState) (args : ExecArgs) (cid : CommandId)
    (now : Nat) (poll : PollOutcome) : ExecResult × Registry :=
  let paneIndex := match args.target_pane with
    | some p => some p
    | none => st.ctPane
  match paneIndex with
  | none => ({ response := .noPane }, st.activeCommands)
  | some _ =>
    let analysis := CommandDetector.analyzeCommand args.command
    let ts := CommandDetector.getTimeoutStrategy args.command
    let reg := st.activeCommands
    -- if (analysis.special?.needsPasswordPrompt)
    if (analysis.special.map (·.needsPasswordPrompt)).getD false then
      match st.ctPane with
      | none => ({ response := .thrown (str "No target pane specified and no default Claude Terminal pane available") }, reg)
      | some _ =>
        ({ response := .needsInteraction (str "Sudo password required in Claude Terminal. Focus switched to CT Pane for password entry.")
           dispatched := true, focused := true }, reg)
    -- if (analysis.special?.editor || analysis.special?.repl || analysis.special?.monitor)
    else if (analysis.special.map (fun s => s.editor || s.repl || s.monitor)).getD false then
      match st.ctPane with
      | none => ({ response := .thrown (str "No target pane specified and no default Claude Terminal pane available") }, reg)
      | some _ =>
        ({ response := .needsInteraction
             ((analysis.special.bind (·.message)).getD [] ++ str "\n\nFocus switched to Claude Terminal.")
           dispatched := true, focused := true }, reg)
    else
      -- clearPane(paneIndex); sendKeys(command, true, paneIndex)
      let shouldWaitForCompletion := match args.wait_for_completion with
        | some b => b
        | none => ts.strategy ≠ str "async"
      if !shouldWaitForCompletion || ts.strategy = str "async" then
        ({ response := .asyncStarted, dispatched := true, cleared := true
           startedAsyncMonitor := true },
         monitorRegister reg cid args.command analysis now)
      else
        match poll with
        | .completed out =>
          ({ response := .syncCompleted out, dispatched := true, cleared := true
             invokedPollLoop := true }, reg)
        | .interactivePrompt out =>
          ({ response := .syncInteractive out, dispatched := true, cleared := true
             invokedPollLoop := true, focused := true }, reg)
        | .errored m =>
          ({ response := .syncError m, dispatched := true, cleared := true
             invokedPollLoop := true }, reg)
        | .timedOut =>
          ({ response := .timedOutToAsync, dispatched := true, cleared := true
             invokedPollLoop := true, startedAsyncMonitor := true },
           monitorRegister reg cid args.command (CommandDetector.analyzeCommand args.command) now)

/-- The special-case condition that makes `executeTerminalCommand` hand off
to the human before any polling: `analysis.special?.needsPasswordPrompt`,
or one of `editor` / `repl` / `monitor`. -/
def specialShortCircuitB (a : CommandDetector.CommandAnalysis) : Bool :=
  (a.special.map (fun s => s.needsPasswordPrompt || s.editor || s.repl || s.monitor)).getD false

/-- The response of the `get_command_status` tool. -/
inductive StatusResponse where
  /-- "Command ID … not found in active commands." -/
  | notFound (id : CommandId)
  /-- The per-session status report. -/
  | details (info : CommandInfo)
  /-- "No active background commands." -/
  | noActive
  /-- The listing of all tracked sessions. -/
  | listing (entries : Registry)
deriving DecidableEq

/-- `getCommandStatus`: report one session by id, or list all sessions. -/
def getCommandStatus (reg : Registry) : Option CommandId → StatusResponse
  | some id =>
    match rlookup reg id with
    | none => .notFound id
    | some info => .details info
  | none => if reg.isEmpty then .noActive else .listing reg

end Mcp

/-! ### Concrete fixtures used to instantiate the theorems -/

/-- A background session for a long command, as registered by
`monitorAsyncCommand`. -/
def infoSleep : Mcp.CommandInfo :=
  { command := str "sleep 1000", startTime := 0
    analysis := CommandDetector.analyzeCommand (str "sleep 1000")
    status := str "running" }

/-- A second tracked session, for a different command. -/
def infoMake : Mcp.CommandInfo :=
  { command := str "make", startTime := 100
    analysis := CommandDetector.analyzeCommand (str "make")
    status := str "running" }

/-- A registry with one session still `running` against the (single) CT
pane. -/
def regBusy : Mcp.Registry := [(str "id-0", infoSleep)]

/-- A registry tracking two background sessions. -/
def regTwo : Mcp.Registry := [(str "id-a", infoSleep), (str "id-b", infoMake)]

/-- An environment in which the CT pane is configured but the
`tmux capture-pane` call fails — the background recheck's throwing case. -/
def envCaptureFails : TmuxManager.TmuxEnv :=
  { ctPane := some 1, shellPid := .ok 42, childPids := .ok [43]
    captureRaw := .error (str "boom"), focusResult := .ok () }

/-- An environment in which the owning shell's process id cannot be
resolved while the captured pane content ends in a shell prompt. -/
def envPidFails : TmuxManager.TmuxEnv :=
  { ctPane := some 1, shellPid := .error (str "exec failed"), childPids := .ok []
    captureRaw := .ok (str "user@host:~$ "), focusResult := .ok () }

/-! ### Helper lemmas -/

theorem splitLines_ne_nil : ∀ l : List Char, splitLines l ≠ [] := by
  intro l
  cases l with
  | nil => simp [splitLines]
  | cons c rest =>
    simp only [splitLines]
    split <;> simp

/-! ### The claims -/

/-- C9: on input `"ls -la"` the classifier returns category `file-system`,
estimated duration 3 and timeout strategy `quick`; on the output
`"file1\nfile2\nuser@host:~$ "` the textual fallback completion detector
returns true. -/
theorem c9_ls_scenario :
    (CommandDetector.analyzeCommand (str "ls -la")).category = str "file-system" ∧
    (CommandDetector.analyzeCommand (str "ls -la")).estimatedDuration = 3 ∧
    (CommandDetector.getTimeoutStrategy (str "ls -la")).strategy = str "quick" ∧
    TmuxManager.isCommandCompleteByOutput (str "file1\nfile2\nuser@host:~$ ") = true := by
  refine ⟨?_, ?_, ?_, ?_⟩ <;> decide

/-- C4: for every command string the derived timeout strategy equals the
spec's cascade (interactive → `no-timeout`; estimated > 300 s → `async`;
> 30 s → `extended` with a 30 s budget; else `quick` with a 5 s budget);
in particular `isInteractive` takes precedence over every duration
bucket. -/
theorem c4_timeout_strategy_cascade :
    ∀ command : List Char,
      CommandDetector.getTimeoutStrategy command =
        CommandDetector.specTimeoutCascade command ∧
      ((CommandDetector.analyzeCommand command).isInteractive = true →
        (CommandDetector.getTimeoutStrategy command).strategy = str "no-timeout") := by
  intro command
  refine ⟨rfl, fun h => ?_⟩
  simp only [CommandDetector.getTimeoutStrategy, h]
  simp

/-- Witness for C4 at the interactive command `"vim notes.txt"`. -/
theorem c4_witness :
    (CommandDetector.getTimeoutStrategy (str "vim notes.txt")).strategy =
      str "no-timeout" :=
  (c4_timeout_strategy_cascade (str "vim notes.txt")).2 (by decide)

/-- C5: the classifier is total (it is a Lean function) and is a pure
function of the trimmed command string: inputs with equal trims classify
identically on every axis. -/
theorem c5_classifier_deterministic :
    ∀ c₁ c₂ : List Char, jsTrim c₁ = jsTrim c₂ →
      CommandDetector.analyzeCommand c₁ = CommandDetector.analyzeCommand c₂ := by
  intro c₁ c₂ h
  unfold CommandDetector.analyzeCommand
  rw [h]

/-- Witness for C5: `"  ls -la  "` and `"ls -la"` classify identically. -/
theorem c5_witness :
    CommandDetector.analyzeCommand (str "  ls -la  ") =
      CommandDetector.analyzeCommand (str "ls -la") :=
  c5_classifier_deterministic (str "  ls -la  ") (str "ls -la") (by decide)

/-- C8: the textual fallback completion detector returns `false` on empty
output, and in general returns `true` exactly when the trimmed last line
of the output matches one of the shell-prompt-ending patterns. -/
theorem c8_textual_detector :
    TmuxManager.isCommandCompleteByOutput [] = false ∧
    ∀ output : List Char,
      TmuxManager.isCommandCompleteByOutput output =
        TmuxManager.promptPatterns.any
          (fun re => re.testS (jsTrim ((splitLines output).getLastD []))) := by
  refine ⟨by decide, fun output => ?_⟩
  simp only [TmuxManager.isCommandCompleteByOutput]
  rw [if_neg (fun h => splitLines_ne_nil output (List.length_eq_zero.mp h))]

theorem rlookup_rmodify_self {reg : Mcp.Registry} {k : Mcp.CommandId}
    {v : Mcp.CommandInfo} (f : Mcp.CommandInfo → Mcp.CommandInfo)
    (h : Mcp.rlookup reg k = some v) :
    Mcp.rlookup (Mcp.rmodify reg k f) k = some (f v) := by
  induction reg with
  | nil => simp [Mcp.rlookup] at h
  | cons p t ih =>
    obtain ⟨k', v'⟩ := p
    by_cases hk : k' = k
    · rw [Mcp.rlookup] at h
      rw [if_pos hk] at h
      cases h
      rw [Mcp.rmodify, if_pos hk, Mcp.rlookup, if_pos hk]
    · rw [Mcp.rlookup] at h
      rw [if_neg hk] at h
      rw [Mcp.rmodify, if_neg hk, Mcp.rlookup, if_neg hk]
      exact ih h

theorem rlookup_rmodify_other {reg : Mcp.Registry} {k j : Mcp.CommandId}
    (f : Mcp.CommandInfo → Mcp.CommandInfo) (h : j ≠ k) :
    Mcp.rlookup (Mcp.rmodify reg k f) j = Mcp.rlookup reg j := by
  induction reg with
  | nil => rfl
  | cons p t ih =>
    obtain ⟨k', v'⟩ := p
    by_cases hk : k' = k
    · have hj : k' ≠ j := fun hh => h (hh ▸ hk)
      rw [Mcp.rmodify, if_pos hk, Mcp.rlookup, if_neg hj, Mcp.rlookup, if_neg hj]
      exact ih
    · rw [Mcp.rmodify, if_neg hk, Mcp.rlookup, Mcp.rlookup]
      by_cases hj : k' = j
      · rw [if_pos hj, if_pos hj]
      · rw [if_neg hj, if_neg hj]
        exact ih

/-- On the special-case short-circuit condition, `executeTerminalCommand`
with a configured CT pane dispatches, focuses, reports `needsInteraction`,
never enters the poll loop or background monitoring, and leaves the
registry untouched. -/
theorem exec_special_path (reg : Mcp.Registry) (args : Mcp.ExecArgs)
    (cid : Mcp.CommandId) (now : Nat) (poll : Mcp.PollOutcome) (p : Nat)
    (h : Mcp.specialShortCircuitB (CommandDetector.analyzeCommand args.command) = true) :
    (Mcp.executeTerminalCommand ⟨some p, reg⟩ args cid now poll).1.dispatched = true ∧
    (Mcp.executeTerminalCommand ⟨some p, reg⟩ args cid now poll).1.focused = true ∧
    (∃ msg, (Mcp.executeTerminalCommand ⟨some p, reg⟩ args cid now poll).1.response =
      Mcp.ResponseKind.needsInteraction msg) ∧
    (Mcp.executeTerminalCommand ⟨some p, reg⟩ args cid now poll).1.invokedPollLoop = false ∧
    (Mcp.executeTerminalCommand ⟨some p, reg⟩ args cid now poll).1.startedAsyncMonitor = false ∧
    (Mcp.executeTerminalCommand ⟨some p, reg⟩ args cid now poll).2 = reg := by
  unfold Mcp.executeTerminalCommand
  unfold Mcp.specialShortCircuitB at h
  cases hs : (CommandDetector.analyzeCommand args.command).special with
  | none => rw [hs] at h; simp at h
  | some s =>
    rw [hs] at h
    replace h : (s.needsPasswordPrompt || s.editor || s.repl || s.monitor) = true := by
      simpa using h
    cases htp : args.target_pane with
    | none =>
      simp only [htp]
      by_cases hpw : s.needsPasswordPrompt = true
      · simp [hs, hpw]
      · have hb : s.needsPasswordPrompt = false := by
          revert hpw; cases s.needsPasswordPrompt <;> simp
        rw [hb] at h
        simp only [Bool.false_or] at h
        simp [hs, hb, h]
    | some q =>
      simp only [htp]
      by_cases hpw : s.needsPasswordPrompt = true
      · simp [hs, hpw]
      · have hb : s.needsPasswordPrompt = false := by
          revert hpw; cases s.needsPasswordPrompt <;> simp
        rw [hb] at h
        simp only [Bool.false_or] at h
        simp [hs, hb, h]

/-- C1 counterexample: `"bash"` matches a special-handling pattern (the
`shell` flag is set, so `special` is non-null), yet `executeTerminalCommand`
enters the synchronous completion poll loop and returns its result instead
of `NeedsInteraction`. -/
theorem c1_counterexample :
    (CommandDetector.analyzeCommand (str "bash")).special.isSome = true ∧
    ((CommandDetector.analyzeCommand (str "bash")).special.map (·.shell)) = some true ∧
    (Mcp.executeTerminalCommand ⟨some 1, []⟩ ⟨str "bash", none, none⟩
      (str "id-1") 0 (.completed (str "ok"))).1.invokedPollLoop = true ∧
    (Mcp.executeTerminalCommand ⟨some 1, []⟩ ⟨str "bash", none, none⟩
      (str "id-1") 0 (.completed (str "ok"))).1.response =
      Mcp.ResponseKind.syncCompleted (str "ok") := by
  refine ⟨?_, ?_, ?_, ?_⟩ <;> decide

/-- C1 (amended): for every command whose classification sets
`needsPasswordPrompt` or one of the `editor`/`repl`/`monitor` special
flags, `executeTerminalCommand` with an available CT pane dispatches the
command, focuses the target pane and returns `NeedsInteraction`
immediately, without ever invoking the synchronous completion poll loop
(`waitForCommandCompletion`). -/
theorem c1_special_needs_interaction :
    ∀ (reg : Mcp.Registry) (args : Mcp.ExecArgs) (cid : Mcp.CommandId)
      (now : Nat) (poll : Mcp.PollOutcome) (p : Nat),
      Mcp.specialShortCircuitB (CommandDetector.analyzeCommand args.command) = true →
      (Mcp.executeTerminalCommand ⟨some p, reg⟩ args cid now poll).1.dispatched = true ∧
      (Mcp.executeTerminalCommand ⟨some p, reg⟩ args cid now poll).1.focused = true ∧
      (∃ msg, (Mcp.executeTerminalCommand ⟨some p, reg⟩ args cid now poll).1.response =
        Mcp.ResponseKind.needsInteraction msg) ∧
      (Mcp.executeTerminalCommand ⟨some p, reg⟩ args cid now poll).1.invokedPollLoop = false := by
  intro reg args cid now poll p h
  obtain ⟨h1, h2, h3, h4, _, _⟩ := exec_special_path reg args cid now poll p h
  exact ⟨h1, h2, h3, h4⟩

/-- Witness for C1 at `"sudo apt update"` (elevated privilege). -/
theorem c1_witness :
    (Mcp.executeTerminalCommand ⟨some 1, []⟩ ⟨str "sudo apt update", none, none⟩
      (str "id-1") 0 Mcp.PollOutcome.timedOut).1.dispatched = true ∧
    (Mcp.executeTerminalCommand ⟨some 1, []⟩ ⟨str "sudo apt update", none, none⟩
      (str "id-1") 0 Mcp.PollOutcome.timedOut).1.focused = true ∧
    (∃ msg, (Mcp.executeTerminalCommand ⟨some 1, []⟩ ⟨str "sudo apt update", none, none⟩
      (str "id-1") 0 Mcp.PollOutcome.timedOut).1.response =
      Mcp.ResponseKind.needsInteraction msg) ∧
    (Mcp.executeTerminalCommand ⟨some 1, []⟩ ⟨str "sudo apt update", none, none⟩
      (str "id-1") 0 Mcp.PollOutcome.timedOut).1.invokedPollLoop = false :=
  c1_special_needs_interaction [] ⟨str "sudo apt update", none, none⟩
    (str "id-1") 0 Mcp.PollOutcome.timedOut 1 (by decide)

/-- C3 counterexample: with a session still `running` in the registry
(`regBusy`), a dispatch of `"ls -la"` to the same CT pane is neither
rejected nor queued: it is dispatched and polls the pane, and on timeout
even starts a second background monitor against the same target. -/
theorem c3_counterexample :
    (Mcp.rlookup regBusy (str "id-0")).map (·.status) = some (str "running") ∧
    (Mcp.executeTerminalCommand ⟨some 1, regBusy⟩ ⟨str "ls -la", none, none⟩
      (str "id-1") 0 Mcp.PollOutcome.timedOut).1.dispatched = true ∧
    (Mcp.executeTerminalCommand ⟨some 1, regBusy⟩ ⟨str "ls -la", none, none⟩
      (str "id-1") 0 Mcp.PollOutcome.timedOut).1.invokedPollLoop = true ∧
    (Mcp.executeTerminalCommand ⟨some 1, regBusy⟩ ⟨str "ls -la", none, none⟩
      (str "id-1") 0 Mcp.PollOutcome.timedOut).1.startedAsyncMonitor = true := by
  refine ⟨?_, ?_, ?_, ?_⟩ <;> decide

/-- C3 (amended): the orchestrator performs no per-target serialization:
the observable behaviour of `executeTerminalCommand` (dispatch, focus,
polling, response) is entirely independent of the registry of active
sessions, so a dispatch proceeds identically whether or not another
command is still being polled against the same target. -/
theorem c3_no_serialization :
    ∀ (ct : Option Nat) (reg₁ reg₂ : Mcp.Registry) (args : Mcp.ExecArgs)
      (cid : Mcp.CommandId) (now : Nat) (poll : Mcp.PollOutcome),
      (Mcp.executeTerminalCommand ⟨ct, reg₁⟩ args cid now poll).1 =
        (Mcp.executeTerminalCommand ⟨ct, reg₂⟩ args cid now poll).1 := by
  intro ct reg₁ reg₂ args cid now poll
  unfold Mcp.executeTerminalCommand
  cases args.target_pane <;> cases ct <;> dsimp only <;> (try cases poll) <;>
    (try split_ifs) <;> rfl

/-- Witness for C3 with two unequal registries. -/
theorem c3_witness :
    (Mcp.executeTerminalCommand ⟨some 1, regBusy⟩ ⟨str "ls -la", none, none⟩
      (str "id-1") 0 Mcp.PollOutcome.timedOut).1 =
      (Mcp.executeTerminalCommand ⟨some 1, []⟩ ⟨str "ls -la", none, none⟩
        (str "id-1") 0 Mcp.PollOutcome.timedOut).1 :=
  c3_no_serialization (some 1) regBusy [] ⟨str "ls -la", none, none⟩
    (str "id-1") 0 Mcp.PollOutcome.timedOut

/-- C10: on every special-case short-circuit (sudo password, editor, repl,
monitor) the registry is left unchanged, no background monitor starts, and
`get_command_status` for the fresh command id reports not-found; moreover
`executeTerminalCommand` changes the registry only when it starts
background monitoring. -/
theorem c10_shortcircuit_registry_frame :
    (∀ (reg : Mcp.Registry) (args : Mcp.ExecArgs) (cid : Mcp.CommandId)
      (now : Nat) (poll : Mcp.PollOutcome) (p : Nat),
      Mcp.specialShortCircuitB (CommandDetector.analyzeCommand args.command) = true →
      (Mcp.executeTerminalCommand ⟨some p, reg⟩ args cid now poll).2 = reg ∧
      (Mcp.executeTerminalCommand ⟨some p, reg⟩ args cid now poll).1.startedAsyncMonitor = false ∧
      (Mcp.rlookup reg cid = none →
        Mcp.getCommandStatus (Mcp.executeTerminalCommand ⟨some p, reg⟩ args cid now poll).2
          (some cid) = Mcp.StatusResponse.notFound cid)) ∧
    (∀ (st : Mcp.ExecState) (args : Mcp.ExecArgs) (cid : Mcp.CommandId)
      (now : Nat) (poll : Mcp.PollOutcome),
      (Mcp.executeTerminalCommand st args cid now poll).2 ≠ st.activeCommands →
      (Mcp.executeTerminalCommand st args cid now poll).1.startedAsyncMonitor = true) := by
  constructor
  · intro reg args cid now poll p h
    obtain ⟨_, _, _, _, h5, h6⟩ := exec_special_path reg args cid now poll p h
    refine ⟨h6, h5, fun hnone => ?_⟩
    rw [h6]
    simp only [Mcp.getCommandStatus]
    rw [hnone]
  · intro st args cid now poll h
    obtain ⟨ct, reg⟩ := st
    unfold Mcp.executeTerminalCommand at h ⊢
    revert h
    cases args.target_pane <;> cases ct <;> dsimp only <;> (try cases poll) <;>
      (try split_ifs) <;> intro h <;>
      first
        | rfl
        | (exact absurd rfl h)

/-- C2 counterexample: in `envPidFails` the owning shell's process id
cannot be resolved and the captured pane content ends in a shell prompt
(the textual detector would say `true`), yet `isCommandComplete` returns
`false`: the error is swallowed inside `isPaneIdle` ("assume busy") and
the textual fallback is not consulted. -/
theorem c2_counterexample :
    envPidFails.shellPid = Except.error (str "exec failed") ∧
    TmuxManager.isCommandComplete envPidFails = false ∧
    TmuxManager.isCommandCompleteByOutput
      (TmuxManager.cleanOutput (str "user@host:~$ ")) = true := by
  refine ⟨rfl, ?_, ?_⟩ <;> decide

/-- C2 (amended): `isCommandComplete` never surfaces an error (it always
returns a `Bool`) and its value is determined by the process-based check
alone: with a configured CT pane and a resolvable shell pid it reports
whether the shell has no children; in every failure case — unresolvable
pid, or no CT pane — it reports `false`.  The textual fallback is reached
only when `isPaneIdle` itself throws, i.e. exactly when no CT pane is
configured, in which case `capturePane` throws for the same reason and the
fallback yields `false` without consulting the output. -/
theorem c2_no_textual_fallback :
    ∀ e : TmuxManager.TmuxEnv,
      TmuxManager.isCommandComplete e =
        (match e.ctPane, e.shellPid with
         | some _, Except.ok _ => (TmuxManager.getChildProcesses e).isEmpty
         | some _, Except.error _ => false
         | none, _ => false) := by
  intro e
  obtain ⟨ct, pid, ch, cap, foc⟩ := e
  cases ct <;> cases pid <;>
    simp [TmuxManager.isCommandComplete, TmuxManager.isCommandCompleteByProcess,
      TmuxManager.isPaneIdle, TmuxManager.getShellPid, TmuxManager.capturePane]

/-- C7: whenever the background recheck's pane capture throws, the session
transitions to `error` with the thrown message recorded, monitoring stops
(no re-schedule), and every other tracked session is unaffected; the step
itself returns normally (no crash). -/
theorem c7_monitor_error_stops :
    ∀ (e : TmuxManager.TmuxEnv) (reg : Mcp.Registry) (cid : Mcp.CommandId)
      (now : Nat) (m : List Char) (info : Mcp.CommandInfo),
      TmuxManager.capturePane e = Except.error m →
      Mcp.rlookup reg cid = some info →
      (Mcp.monitorStep e reg cid now).2 = false ∧
      Mcp.rlookup (Mcp.monitorStep e reg cid now).1 cid =
        some { info with status := str "error", error := some m } ∧
      (∀ j, j ≠ cid →
        Mcp.rlookup (Mcp.monitorStep e reg cid now).1 j = Mcp.rlookup reg j) := by
  intro e reg cid now m info hc hl
  unfold Mcp.monitorStep
  rw [hc]
  exact ⟨rfl, rlookup_rmodify_self _ hl, fun j hj => rlookup_rmodify_other _ hj⟩

/-- Witness for C7: with `regTwo` tracking two sessions and a failing
capture, session `id-a` becomes `error` with the message preserved and
stops; sibling `id-b` is untouched. -/
theorem c7_witness :
    (Mcp.monitorStep envCaptureFails regTwo (str "id-a") 5000).2 = false ∧
    Mcp.rlookup (Mcp.monitorStep envCaptureFails regTwo (str "id-a") 5000).1 (str "id-a") =
      some { infoSleep with
              status := str "error", error := some (str "Failed to capture pane: boom") } ∧
    Mcp.rlookup (Mcp.monitorStep envCaptureFails regTwo (str "id-a") 5000).1 (str "id-b") =
      some infoMake := by
  have h := c7_monitor_error_stops envCaptureFails regTwo (str "id-a") 5000
    (str "Failed to capture pane: boom") infoSleep rfl rfl
  exact ⟨h.1, h.2.1, (h.2.2 (str "id-b") (by decide)).trans rfl⟩

/-! ### Toolkit for the sanitizer-idempotence proof (C6) -/

theorem dropWhile_self_idem (p : Char → Bool) (l : List Char) :
    (l.dropWhile p).dropWhile p = l.dropWhile p := by
  cases h : l.dropWhile p with
  | nil => rfl
  | cons d t =>
    have hd : p d = false := by
      have h2 := List.head?_dropWhile_not p l
      rw [h] at h2
      simpa using h2
    rw [List.dropWhile_cons_of_neg (by simp [hd])]

theorem rtrim_reverse_eq (l : List Char) :
    (rtrimJs l).reverse = l.reverse.dropWhile jsWs := by
  simp [rtrimJs]

theorem rtrim_idem (l : List Char) : rtrimJs (rtrimJs l) = rtrimJs l := by
  unfold rtrimJs
  rw [List.reverse_reverse, dropWhile_self_idem]

theorem exists_rtrim_append (l : List Char) : ∃ t, rtrimJs l ++ t = l := by
  refine ⟨(l.reverse.takeWhile jsWs).reverse, ?_⟩
  rw [rtrimJs, ← List.reverse_append, List.takeWhile_append_dropWhile,
    List.reverse_reverse]

theorem rtrim_cons (c : Char) (l : List Char) :
    rtrimJs (c :: l) =
      if rtrimJs l = [] then (if jsWs c then [] else [c]) else c :: rtrimJs l := by
  have hrev : (c :: l).reverse = l.reverse ++ [c] := by simp
  unfold rtrimJs
  rw [hrev, List.dropWhile_append]
  by_cases h0 : l.reverse.dropWhile jsWs = []
  · rw [if_pos (by simp [h0]), if_pos (by simp [rtrimJs, h0])]
    cases hc : jsWs c <;> simp [List.dropWhile, hc]
  · rw [if_neg (by simp [h0]), if_neg (by simp [rtrimJs, h0])]
    simp

theorem rtrim_eq_nil_iff (l : List Char) :
    rtrimJs l = [] ↔ ∀ c ∈ l, jsWs c := by
  unfold rtrimJs
  rw [List.reverse_eq_nil_iff, List.dropWhile_eq_nil_iff]
  constructor
  · intro h c hc; exact h c (by simpa using hc)
  · intro h c hc; exact h c (by simpa using hc)

theorem mem_rtrim {c : Char} {l : List Char} (h : c ∈ rtrimJs l) : c ∈ l := by
  unfold rtrimJs at h
  rw [List.mem_reverse] at h
  have := (List.dropWhile_sublist (l := l.reverse) jsWs).subset h
  simpa using this

theorem mem_ltrim {c : Char} {l : List Char} (h : c ∈ ltrimJs l) : c ∈ l :=
  (List.dropWhile_sublist (l := l) jsWs).subset h

theorem mem_jsTrim {c : Char} {l : List Char} (h : c ∈ jsTrim l) : c ∈ l :=
  mem_ltrim (mem_rtrim h)

theorem ltrim_jsTrim (w : List Char) : ltrimJs (jsTrim w) = jsTrim w := by
  unfold jsTrim
  cases h : rtrimJs (ltrimJs w) with
  | nil => rfl
  | cons d t =>
    have hhead : jsWs d = false := by
      obtain ⟨u, hu⟩ := exists_rtrim_append (ltrimJs w)
      rw [h] at hu
      have hlw : List.dropWhile jsWs w = d :: (t ++ u) := by
        show ltrimJs w = d :: (t ++ u)
        rw [← hu]; simp
      have h2 := List.head?_dropWhile_not jsWs w
      rw [hlw] at h2
      simpa using h2
    rw [ltrimJs, List.dropWhile_cons_of_neg (by simp [hhead])]

theorem jsTrim_idem (w : List Char) : jsTrim (jsTrim w) = jsTrim w := by
  conv_lhs => rw [jsTrim, ltrim_jsTrim]
  rw [jsTrim, rtrim_idem]

theorem joinLines_cons {l : List Char} {ls : List (List Char)} (h : ls ≠ []) :
    joinLines (l :: ls) = l ++ '\n' :: joinLines ls := by
  cases ls with
  | nil => exact absurd rfl h
  | cons a t => rfl

theorem joinLines_splitLines (z : List Char) : joinLines (splitLines z) = z := by
  induction z with
  | nil => rfl
  | cons c rest ih =>
    by_cases hc : c = '\n'
    · subst hc
      rw [show splitLines ('\n' :: rest) = [] :: splitLines rest from by
        simp [splitLines]]
      rw [joinLines_cons (splitLines_ne_nil rest), ih]
      simp
    · rw [show splitLines (c :: rest) =
        (c :: (splitLines rest).headI) :: (splitLines rest).tail from by
          simp [splitLines, hc]]
      cases hls : splitLines rest with
      | nil => exact absurd hls (splitLines_ne_nil rest)
      | cons L LS =>
        rw [hls] at ih
        simp only [List.headI, List.tail]
        cases LS with
        | nil =>
          simp only [joinLines] at ih ⊢
          rw [ih]
        | cons M MS =>
          rw [joinLines_cons (by simp)]
          rw [joinLines_cons (by simp)] at ih
          simp only [List.cons_append]
          rw [ih]

theorem splitLines_no_nl {l : List Char} (h : '\n' ∉ l) : splitLines l = [l] := by
  induction l with
  | nil => rfl
  | cons c rest ih =>
    have hc : c ≠ '\n' := fun hh => h (by simp [hh])
    have hr : '\n' ∉ rest := fun hh => h (by simp [hh])
    rw [show splitLines (c :: rest) =
      (c :: (splitLines rest).headI) :: (splitLines rest).tail from by
        simp [splitLines, hc]]
    rw [ih hr]
    simp

theorem splitLines_append_nl {l : List Char} (t : List Char) (h : '\n' ∉ l) :
    splitLines (l ++ '\n' :: t) = l :: splitLines t := by
  induction l with
  | nil => simp [splitLines]
  | cons c rest ih =>
    have hc : c ≠ '\n' := fun hh => h (by simp [hh])
    have hr : '\n' ∉ rest := fun hh => h (by simp [hh])
    rw [List.cons_append]
    rw [show splitLines (c :: (rest ++ '\n' :: t)) =
      (c :: (splitLines (rest ++ '\n' :: t)).headI) ::
        (splitLines (rest ++ '\n' :: t)).tail from by
        simp [splitLines, hc]]
    rw [ih hr]
    simp

theorem splitLines_joinLines {ls : List (List Char)} (h : ls ≠ [])
    (hn : ∀ L ∈ ls, '\n' ∉ L) : splitLines (joinLines ls) = ls := by
  induction ls with
  | nil => exact absurd rfl h
  | cons L LS ih =>
    cases LS with
    | nil =>
      simp only [joinLines]
      exact splitLines_no_nl (hn L (by simp))
    | cons M MS =>
      rw [joinLines_cons (by simp)]
      rw [splitLines_append_nl _ (hn L (by simp))]
      rw [ih (by simp) (fun K hK => hn K (by simp [hK]))]

theorem mem_splitLines {c : Char} {L z : List Char}
    (hL : L ∈ splitLines z) (hc : c ∈ L) : c ∈ z := by
  induction z generalizing L with
  | nil =>
    simp [splitLines] at hL
    subst hL
    simp at hc
  | cons a rest ih =>
    by_cases ha : a = '\n'
    · subst ha
      rw [show splitLines ('\n' :: rest) = [] :: splitLines rest from by
        simp [splitLines]] at hL
      rcases List.mem_cons.mp hL with h1 | h1
      · subst h1; simp at hc
      · simp [ih h1 hc]
    · rw [show splitLines (a :: rest) =
        (a :: (splitLines rest).headI) :: (splitLines rest).tail from by
          simp [splitLines, ha]] at hL
      cases hls : splitLines rest with
      | nil => exact absurd hls (splitLines_ne_nil rest)
      | cons K KS =>
        rw [hls] at hL
        simp only [List.headI, List.tail] at hL
        rcases List.mem_cons.mp hL with h1 | h1
        · subst h1
          rcases List.mem_cons.mp hc with h2 | h2
          · simp [h2]
          · simp [ih (by rw [hls]; simp) h2]
        · simp [ih (by rw [hls]; simp [h1]) hc]

theorem splitLines_mem_no_nl {L z : List Char} (hL : L ∈ splitLines z) :
    '\n' ∉ L := by
  induction z generalizing L with
  | nil =>
    simp [splitLines] at hL
    subst hL; simp
  | cons a rest ih =>
    by_cases ha : a = '\n'
    · subst ha
      rw [show splitLines ('\n' :: rest) = [] :: splitLines rest from by
        simp [splitLines]] at hL
      rcases List.mem_cons.mp hL with h1 | h1
      · subst h1; simp
      · exact ih h1
    · rw [show splitLines (a :: rest) =
        (a :: (splitLines rest).headI) :: (splitLines rest).tail from by
          simp [splitLines, ha]] at hL
      cases hls : splitLines rest with
      | nil => exact absurd hls (splitLines_ne_nil rest)
      | cons K KS =>
        rw [hls] at hL
        simp only [List.headI, List.tail] at hL
        rcases List.mem_cons.mp hL with h1 | h1
        · subst h1
          intro hmem
          rcases List.mem_cons.mp hmem with h2 | h2
          · exact ha h2.symm
          · exact ih (by rw [hls]; simp) h2
        · exact ih (by rw [hls]; simp [h1])

theorem mem_joinLines {c : Char} {ls : List (List Char)} (h : c ∈ joinLines ls) :
    c = '\n' ∨ ∃ L ∈ ls, c ∈ L := by
  induction ls with
  | nil => simp [joinLines] at h
  | cons L LS ih =>
    cases LS with
    | nil =>
      simp only [joinLines] at h
      exact Or.inr ⟨L, by simp, h⟩
    | cons M MS =>
      rw [joinLines_cons (by simp)] at h
      rcases List.mem_append.mp h with h1 | h1
      · exact Or.inr ⟨L, by simp, h1⟩
      · rcases List.mem_cons.mp h1 with h2 | h2
        · exact Or.inl h2
        · rcases ih h2 with h3 | ⟨K, hK, hcK⟩
          · exact Or.inl h3
          · exact Or.inr ⟨K, by simp [hK], hcK⟩

theorem splitLines_cons_nl (rest : List Char) :
    splitLines ('\n' :: rest) = [] :: splitLines rest := by
  simp [splitLines]

theorem splitLines_cons_other {c : Char} (rest : List Char) (hc : c ≠ '\n') :
    splitLines (c :: rest) =
      (c :: (splitLines rest).headI) :: (splitLines rest).tail := by
  simp [splitLines, hc]

theorem map_rtrim_eq_self {ms : List (List Char)}
    (h : ∀ L ∈ ms, rtrimJs L = L) : ms.map rtrimJs = ms := by
  induction ms with
  | nil => rfl
  | cons L LS ih =>
    simp only [List.map_cons, h L (by simp),
      ih (fun K hK => h K (by simp [hK]))]

theorem rtrim_fixed_of_cons {c : Char} {L : List Char}
    (h : rtrimJs (c :: L) = c :: L) : rtrimJs L = L := by
  rw [rtrim_cons] at h
  by_cases h0 : rtrimJs L = []
  · rw [if_pos h0] at h
    by_cases hw : jsWs c
    · rw [if_pos hw] at h
      exact absurd h (by simp)
    · rw [if_neg hw] at h
      have hL : L = [] := by
        have := h.symm
        simpa using this
      rw [hL] at h0 ⊢
      exact h0
  · rw [if_neg h0] at h
    simpa using h

theorem rtrim_fixed_not_ws {c : Char} {L : List Char}
    (h : rtrimJs (c :: L) = c :: L) (h0 : rtrimJs L = []) : jsWs c = false := by
  rw [rtrim_cons, if_pos h0] at h
  by_cases hw : jsWs c
  · rw [if_pos hw] at h
    exact absurd h (by simp)
  · simpa using hw

theorem lines_rt_cons {c : Char} {rest : List Char} (hc : c ≠ '\n')
    (h : (splitLines (c :: rest)).map rtrimJs = splitLines (c :: rest)) :
    rtrimJs (c :: (splitLines rest).headI) = c :: (splitLines rest).headI ∧
      (splitLines rest).map rtrimJs = splitLines rest := by
  rw [splitLines_cons_other rest hc] at h
  cases hls : splitLines rest with
  | nil => exact absurd hls (splitLines_ne_nil rest)
  | cons L LS =>
    rw [hls] at h
    simp only [List.headI, List.tail] at h ⊢
    have h1 : rtrimJs (c :: L) = c :: L := by
      have := congrArg (·.headI) h
      simpa using this
    have h2 : LS.map rtrimJs = LS := by
      have := congrArg (·.tail) h
      simpa using this
    exact ⟨h1, by simp [rtrim_fixed_of_cons h1, h2]⟩

theorem lines_rt_tail_nl {rest : List Char}
    (h : (splitLines ('\n' :: rest)).map rtrimJs = splitLines ('\n' :: rest)) :
    (splitLines rest).map rtrimJs = splitLines rest := by
  rw [splitLines_cons_nl] at h
  have := congrArg (·.tail) h
  simpa using this

theorem lines_rt_ltrim : ∀ w : List Char,
    (splitLines w).map rtrimJs = splitLines w →
    (splitLines (ltrimJs w)).map rtrimJs = splitLines (ltrimJs w) := by
  intro w
  induction w with
  | nil => intro h; exact h
  | cons c rest ih =>
    intro h
    by_cases hw : jsWs c
    · rw [show ltrimJs (c :: rest) = ltrimJs rest from
        List.dropWhile_cons_of_pos hw]
      by_cases hc : c = '\n'
      · exact ih (lines_rt_tail_nl (hc ▸ h))
      · exact ih (lines_rt_cons hc h).2
    · rw [show ltrimJs (c :: rest) = c :: rest from
        List.dropWhile_cons_of_neg (by simp [hw])]
      exact h

theorem rtrim_nil : rtrimJs ([] : List Char) = [] := rfl

theorem rtrim_head_nl {r u : List Char} (h : rtrimJs r = '\n' :: u) :
    ∃ v, r = '\n' :: v := by
  obtain ⟨t, ht⟩ := exists_rtrim_append r
  rw [h] at ht
  exact ⟨u ++ t, by rw [← ht]; simp⟩

theorem splitLines_head_nil {x : List Char} {LS : List (List Char)}
    (h : splitLines x = [] :: LS) : x = [] ∨ ∃ v, x = '\n' :: v := by
  cases x with
  | nil => exact Or.inl rfl
  | cons d v =>
    by_cases hd : d = '\n'
    · exact Or.inr ⟨v, by rw [hd]⟩
    · rw [splitLines_cons_other v hd] at h
      simp at h

theorem lines_rt_rtrim : ∀ w : List Char,
    (splitLines w).map rtrimJs = splitLines w →
    (splitLines (rtrimJs w)).map rtrimJs = splitLines (rtrimJs w) := by
  intro w
  induction w with
  | nil => intro h; exact h
  | cons c rest ih =>
    intro h
    by_cases hc : c = '\n'
    · subst hc
      have hrest := lines_rt_tail_nl h
      have hr' := ih hrest
      rw [rtrim_cons]
      by_cases h0 : rtrimJs rest = []
      · rw [if_pos h0, if_pos (by decide)]
        decide
      · rw [if_neg h0]
        rw [splitLines_cons_nl]
        simp only [List.map_cons, rtrim_nil]
        rw [hr']
    · obtain ⟨hhead, hrest⟩ := lines_rt_cons hc h
      have hr' := ih hrest
      rw [rtrim_cons]
      by_cases h0 : rtrimJs rest = []
      · rw [if_pos h0]
        have hLws : rtrimJs ((splitLines rest).headI) = [] := by
          rw [rtrim_eq_nil_iff]
          intro x hx
          refine (rtrim_eq_nil_iff (l := rest)).mp h0 x ?_
          refine mem_splitLines ?_ hx
          cases hls : splitLines rest with
          | nil => exact absurd hls (splitLines_ne_nil rest)
          | cons K KS => simp
        have hwc : jsWs c = false := rtrim_fixed_not_ws hhead hLws
        rw [if_neg (by simp [hwc])]
        rw [show splitLines [c] = [[c]] from splitLines_no_nl
          (by intro hh; rw [List.mem_singleton] at hh; exact hc hh.symm)]
        simp only [List.map_cons, List.map_nil]
        have hc1 : rtrimJs [c] = [c] := by
          rw [rtrim_cons, if_pos rtrim_nil, if_neg (by simp [hwc])]
        rw [hc1]
      · rw [if_neg h0]
        rw [splitLines_cons_other (rtrimJs rest) hc]
        cases hls' : splitLines (rtrimJs rest) with
        | nil => exact absurd hls' (splitLines_ne_nil (rtrimJs rest))
        | cons L' LS' =>
          rw [hls'] at hr'
          simp only [List.map_cons] at hr'
          have h1 : rtrimJs L' = L' := by
            have := congrArg (·.headI) hr'
            simpa using this
          have h2 : LS'.map rtrimJs = LS' := by
            have := congrArg (·.tail) hr'
            simpa using this
          simp only [List.headI, List.tail]
          simp only [List.map_cons]
          have hh : rtrimJs (c :: L') = c :: L' := by
            cases hL' : L' with
            | nil =>
              rcases splitLines_head_nil (hL' ▸ hls') with hx | ⟨v, hv⟩
              · exact absurd hx h0
              · obtain ⟨v', hv'⟩ := rtrim_head_nl hv
                have hIempty : (splitLines rest).headI = [] := by
                  rw [hv', splitLines_cons_nl]
                  rfl
                rw [hIempty] at hhead
                exact hhead
            | cons d ds =>
              rw [hL'] at h1
              rw [rtrim_cons, if_neg (by rw [h1]; simp), h1]
          rw [hh, h2]

theorem processLines_lines_rt (y : List Char) :
    (splitLines (TmuxManager.processLines y)).map rtrimJs =
      splitLines (TmuxManager.processLines y) := by
  have hne : (splitLines y).map rtrimJs ≠ [] := by
    intro h
    exact splitLines_ne_nil y (by simpa using h)
  have hfix : ∀ L ∈ (splitLines y).map rtrimJs, rtrimJs L = L := by
    intro L hL
    rcases List.mem_map.mp hL with ⟨K, _, hK⟩
    rw [← hK]
    exact rtrim_idem K
  have hnl : ∀ L ∈ (splitLines y).map rtrimJs, '\n' ∉ L := by
    intro L hL hmem
    rcases List.mem_map.mp hL with ⟨K, hKmem, hK⟩
    rw [← hK] at hmem
    exact splitLines_mem_no_nl hKmem (mem_rtrim hmem)
  have hjoin : (splitLines (joinLines ((splitLines y).map rtrimJs))).map rtrimJs =
      splitLines (joinLines ((splitLines y).map rtrimJs)) := by
    rw [splitLines_joinLines hne hnl]
    exact map_rtrim_eq_self hfix
  show (splitLines (rtrimJs (ltrimJs (joinLines ((splitLines y).map rtrimJs))))).map rtrimJs =
    splitLines (rtrimJs (ltrimJs (joinLines ((splitLines y).map rtrimJs))))
  exact lines_rt_rtrim _ (lines_rt_ltrim _ hjoin)

theorem processLines_trim_fixed (y : List Char) :
    jsTrim (TmuxManager.processLines y) = TmuxManager.processLines y :=
  jsTrim_idem (joinLines ((splitLines y).map rtrimJs))

theorem processLines_fixed {w : List Char}
    (h1 : (splitLines w).map rtrimJs = splitLines w) (h2 : jsTrim w = w) :
    TmuxManager.processLines w = w := by
  unfold TmuxManager.processLines
  rw [h1, joinLines_splitLines, h2]

theorem processLines_idem (y : List Char) :
    TmuxManager.processLines (TmuxManager.processLines y) =
      TmuxManager.processLines y :=
  processLines_fixed (processLines_lines_rt y) (processLines_trim_fixed y)

theorem cleanOutput_chars (x : List Char) :
    ∀ c ∈ TmuxManager.cleanOutput x, TmuxManager.isCtrlClass c = false := by
  intro c hc
  have hc' : c ∈ joinLines ((splitLines (TmuxManager.stripCR (TmuxManager.stripCtl
      (TmuxManager.stripR4 (TmuxManager.stripR3 (TmuxManager.stripCSI
        TmuxManager.isParamChar2 (TmuxManager.stripCSI TmuxManager.isParamChar x))))))).map
      rtrimJs) := mem_jsTrim hc
  rcases mem_joinLines hc' with hnl | ⟨L, hL, hcL⟩
  · rw [hnl]; decide
  · rcases List.mem_map.mp hL with ⟨K, hKmem, hK⟩
    rw [← hK] at hcL
    have hmemw := mem_splitLines hKmem (mem_rtrim hcL)
    have hmemctl : c ∈ TmuxManager.stripCtl (TmuxManager.stripR4 (TmuxManager.stripR3
        (TmuxManager.stripCSI TmuxManager.isParamChar2 (TmuxManager.stripCSI
          TmuxManager.isParamChar x)))) := (List.mem_filter.mp hmemw).1
    have := (List.mem_filter.mp hmemctl).2
    simpa using this

theorem stripCSIF_no_esc (p : Char → Bool) :
    ∀ (fuel : Nat) (l : List Char), escChar ∉ l →
      TmuxManager.stripCSIF p fuel l = l := by
  intro fuel
  induction fuel with
  | zero => intro l _; rfl
  | succ n ih =>
    intro l h
    cases l with
    | nil => rfl
    | cons c rest =>
      have hc : ¬ c = escChar := fun hh => h (by simp [hh])
      have hr : escChar ∉ rest := fun hh => h (by simp [hh])
      simp only [TmuxManager.stripCSIF, if_neg hc]
      rw [ih rest hr]

theorem stripR3F_no_esc :
    ∀ (fuel : Nat) (l : List Char), escChar ∉ l →
      TmuxManager.stripR3F fuel l = l := by
  intro fuel
  induction fuel with
  | zero => intro l _; rfl
  | succ n ih =>
    intro l h
    cases l with
    | nil => rfl
    | cons c rest =>
      have hc : ¬ c = escChar := fun hh => h (by simp [hh])
      have hr : escChar ∉ rest := fun hh => h (by simp [hh])
      simp only [TmuxManager.stripR3F, if_neg hc]
      rw [ih rest hr]

theorem stripR4F_no_esc :
    ∀ (fuel : Nat) (l : List Char), escChar ∉ l →
      TmuxManager.stripR4F fuel l = l := by
  intro fuel
  induction fuel with
  | zero => intro l _; rfl
  | succ n ih =>
    intro l h
    cases l with
    | nil => rfl
    | cons c rest =>
      have hc : ¬ c = escChar := fun hh => h (by simp [hh])
      have hr : escChar ∉ rest := fun hh => h (by simp [hh])
      simp only [TmuxManager.stripR4F, if_neg hc]
      rw [ih rest hr]

theorem stripCtl_id {l : List Char}
    (h : ∀ c ∈ l, TmuxManager.isCtrlClass c = false) :
    TmuxManager.stripCtl l = l :=
  List.filter_eq_self.mpr (fun a ha => by simp [h a ha])

theorem stripCR_id {l : List Char}
    (h : ∀ c ∈ l, TmuxManager.isCtrlClass c = false) :
    TmuxManager.stripCR l = l := by
  refine List.filter_eq_self.mpr (fun a ha => ?_)
  by_cases hcr : a = '\r'
  · rw [hcr] at ha
    have := h '\r' ha
    rw [(by decide : TmuxManager.isCtrlClass '\r' = true)] at this
    exact absurd this (by simp)
  · simp [hcr]

theorem cleanOutput_of_clean {s : List Char}
    (h : ∀ c ∈ s, TmuxManager.isCtrlClass c = false) :
    TmuxManager.cleanOutput s = TmuxManager.processLines s := by
  have hesc : escChar ∉ s := by
    intro hmem
    have := h escChar hmem
    rw [(by decide : TmuxManager.isCtrlClass escChar = true)] at this
    exact absurd this (by simp)
  unfold TmuxManager.cleanOutput
  rw [show TmuxManager.stripCSI TmuxManager.isParamChar s = s from
      stripCSIF_no_esc _ _ _ hesc,
    show TmuxManager.stripCSI TmuxManager.isParamChar2 s = s from
      stripCSIF_no_esc _ _ _ hesc,
    show TmuxManager.stripR3 s = s from stripR3F_no_esc _ _ hesc,
    show TmuxManager.stripR4 s = s from stripR4F_no_esc _ _ hesc,
    stripCtl_id h, stripCR_id h]

/-- C6 counterexample: the Go sanitizer of `main.go` is not idempotent:
on the input `"\x1b\x1b[0m[0m"` removing the escape sequence resurrects a
new one, so a second pass removes more. -/
theorem c6_counterexample :
    MainGo.cleanOutput [escChar, escChar, '[', '0', 'm', '[', '0', 'm'] =
      escChar :: str "[0m" ∧
    MainGo.cleanOutput (MainGo.cleanOutput
      [escChar, escChar, '[', '0', 'm', '[', '0', 'm']) = [] ∧
    MainGo.cleanOutput (MainGo.cleanOutput
      [escChar, escChar, '[', '0', 'm', '[', '0', 'm']) ≠
      MainGo.cleanOutput [escChar, escChar, '[', '0', 'm', '[', '0', 'm'] := by
  refine ⟨?_, ?_, ?_⟩ <;> decide

/-- C6 (amended): the Node.js sanitizer (`cleanOutput` of
`tmux-manager.js`) is idempotent on every string; its Go counterpart in
`main.go` is not (see the counterexample). -/
theorem c6_js_cleanOutput_idempotent :
    ∀ x : List Char,
      TmuxManager.cleanOutput (TmuxManager.cleanOutput x) =
        TmuxManager.cleanOutput x := by
  intro x
  rw [cleanOutput_of_clean (cleanOutput_chars x)]
  exact processLines_idem (TmuxManager.stripCR (TmuxManager.stripCtl
    (TmuxManager.stripR4 (TmuxManager.stripR3 (TmuxManager.stripCSI
      TmuxManager.isParamChar2 (TmuxManager.stripCSI TmuxManager.isParamChar x))))))

/-- Witness for C10 at `"sudo apt update"` with an empty registry. -/
theorem c10_witness :
    (Mcp.executeTerminalCommand ⟨some 1, []⟩ ⟨str "sudo apt update", none, none⟩
      (str "id-9") 0 Mcp.PollOutcome.timedOut).2 = [] ∧
    (Mcp.executeTerminalCommand ⟨some 1, []⟩ ⟨str "sudo apt update", none, none⟩
      (str "id-9") 0 Mcp.PollOutcome.timedOut).1.startedAsyncMonitor = false ∧
    Mcp.getCommandStatus
      (Mcp.executeTerminalCommand ⟨some 1, []⟩ ⟨str "sudo apt update", none, none⟩
        (str "id-9") 0 Mcp.PollOutcome.timedOut).2 (some (str "id-9")) =
      Mcp.StatusResponse.notFound (str "id-9") := by
  have h := c10_shortcircuit_registry_frame.1 [] ⟨str "sudo apt update", none, none⟩
    (str "id-9") 0 Mcp.PollOutcome.timedOut 1 (by decide)
  exact ⟨h.1, h.2.1, h.2.2 rfl⟩
